import Mathlib

/-!
Shallow embedding of the KYC backend service: the session store
(`app/utils/storage.py`), matching utilities (`app/utils/matching.py`),
the challenge verifier (`app/models/challenge_verifier.py`) and the
router endpoints (`app/routers/kyc.py`).  Collaborator outputs (ML
models, image decoding, HTTP fetches, uuid generation, random sampling)
are passed in as explicit inputs.  Python floats are idealised as
rationals; the square-root primitive used by `np.linalg.norm` is passed
as a function parameter `sqrt`.
-/

namespace KYC

/-- Embedding vectors: numpy float arrays idealised as rational lists. -/
abbrev Vec := List ℚ

/-- Elementwise dot product, `np.dot` on equal-length vectors. -/
def dotQ (a b : Vec) : ℚ := (List.zipWith (fun x y => x * y) a b).sum

/-- Division of a vector by its norm plus the epsilon guard `1e-8`, from
`app/utils/matching.py`; `np.linalg.norm v` is `sqrt (dotQ v v)` with the
numeric square-root primitive passed in as `sqrt`. -/
def normalizeV (sqrt : ℚ → ℚ) (v : Vec) : Vec :=
  v.map (fun x => x / (sqrt (dotQ v v) + 1 / 100000000))

/-- From `app/utils/matching.py`: despite its name this function returns
`1 - dot v1 v2` over the normalised vectors, i.e. the cosine distance
(0 means identical direction). -/
def cosine_similarity (sqrt : ℚ → ℚ) (vec1 vec2 : Vec) : ℚ :=
  1 - dotQ (normalizeV sqrt vec1) (normalizeV sqrt vec2)

/-- From `app/utils/matching.py`: `is_match(similarity, threshold)`. -/
def is_match (similarity threshold : ℚ) : Bool := decide (similarity < threshold)

/-- The one-argument form of `is_match`, at its default threshold `0.33`. -/
def is_matchD (similarity : ℚ) : Bool := is_match similarity (33 / 100)

/-- From `app/models/challenge_verifier.py`. -/
structure ChallengeVerifier where
  sequence : List String
deriving DecidableEq

/-- Label at `index`, or the sentinel `"upload_id"` once `index` reaches the
end of the sequence. -/
def ChallengeVerifier.next_action (v : ChallengeVerifier) (index : Nat) : String :=
  if v.sequence.length ≤ index then "upload_id" else v.sequence.getD index ""

/-- Optimistically accepts the current step (always `true`) and returns the
action following it. -/
def ChallengeVerifier.verify_step (v : ChallengeVerifier) (index : Nat) : Bool × String :=
  (true, v.next_action (index + 1))

/-- An entry of a session's `social_images` list: `{"id": ..., "name": ...}`. -/
structure SocialImage where
  imgId : String
  name : String
deriving DecidableEq

/-- A session dictionary as created by `storage.create_session` and mutated by
the endpoints.  Keys that `create_session` does not set (`verifier`,
`match_score`, `liveness_score`, `failure_reason`) are modelled as `Option`
fields that start out `none`. -/
structure Session where
  status : String
  challenges : List String
  challenge_index : Nat
  liveness_scores : List ℚ
  id_face_embedding : Option Vec
  live_embedding : Option Vec
  ocr_text : Option String
  social_profile_url : Option String
  social_match_score : Option ℚ
  social_risk_score : Option ℚ
  social_status : Option String
  social_images : List SocialImage
  verifier : Option ChallengeVerifier
  match_score : Option ℚ
  liveness_score : Option ℚ
  failure_reason : Option String
deriving DecidableEq

/-- The in-memory `SESSIONS` dict, as an association list (first occurrence of
a key wins, matching unique dict keys). -/
abbrev Store := List (String × Session)

/-- Dictionary lookup, `SESSIONS.get(session_id)`. -/
def getS (st : Store) (id : String) : Option Session :=
  match st with
  | [] => none
  | (k, s) :: rest => if k = id then some s else getS rest id

/-- Semantics of `storage.update_session`: modify the stored session if the id
is present, otherwise do nothing. -/
def updS (st : Store) (id : String) (f : Session → Session) : Store :=
  match st with
  | [] => []
  | (k, s) :: rest => if k = id then (k, f s) :: rest else (k, s) :: updS rest id f

/-- Dictionary assignment `SESSIONS[id] = s` (shadowing any earlier entry). -/
def putS (st : Store) (id : String) (s : Session) : Store := (id, s) :: st

/-- Fresh session state built by `storage.create_session`. -/
def freshSession (challenges : List String) : Session :=
  { status := "pending"
    challenges := challenges
    challenge_index := 0
    liveness_scores := []
    id_face_embedding := none
    live_embedding := none
    ocr_text := none
    social_profile_url := none
    social_match_score := none
    social_risk_score := none
    social_status := none
    social_images := []
    verifier := none
    match_score := none
    liveness_score := none
    failure_reason := none }

/-- `storage.create_session`: allocate the session under the given id (the
uuid is passed in as an oracle input). -/
def create_session (st : Store) (session_id : String) (challenges : List String) : Store :=
  putS st session_id (freshSession challenges)

/-- Errors surfaced by the endpoints.  `internalError` stands for an uncaught
Python exception (HTTP 500), e.g. `max([])` raising `ValueError` or a missing
dict key. -/
inductive Err
  | sessionNotFound
  | missingEmbeddings
  | decodeFailure
  | failedFetch
  | internalError
deriving DecidableEq

/-- Response of `/start`. -/
structure StartResponse where
  session_id : String
  challenge_sequence : List String
deriving DecidableEq

/-- Response of `/frame`. -/
structure FrameResponse where
  liveness_score : ℚ
  challenge_passed : Bool
  next_action : String
deriving DecidableEq

/-- Response of `/verify`. -/
structure VerifyResponse where
  match_score : ℚ
  liveness_score_final : ℚ
  kyc_passed : Bool
deriving DecidableEq

/-- Response of `/id-upload` (the encoded face crop is reduced to a flag). -/
structure IDUploadResponse where
  extracted_text : String
  id_face_found : Bool
deriving DecidableEq

/-- Response of `/social/upload`. -/
structure SocialResponse where
  social_match_score : ℚ
  social_risk_score : ℚ
  social_status : String
deriving DecidableEq

/-- Response of `/social/check`. -/
structure SocialCheckResponse where
  social_match_score : ℚ
  social_risk_score : ℚ
  social_status : String
  profile_url : String
  username : String
  pfp_url : Option String
deriving DecidableEq

/-- Endpoint `start_kyc`: `random.sample` is an oracle, its output `sequence`
is an input; creates the session and then stores the `ChallengeVerifier`. -/
def start_kyc (st : Store) (session_id : String) (sequence : List String) :
    StartResponse × Store :=
  let st1 := create_session st session_id sequence
  let st2 := updS st1 session_id (fun s => { s with verifier := some ⟨sequence⟩ })
  (⟨session_id, sequence⟩, st2)

/-- Endpoint `process_frame`.  Oracle inputs: `decodeOk` (did
`decode_base64_image` + `pil_to_cv` succeed), `score` (the anti-spoof
prediction) and `embedding` (the face-embedder output).  A missing
`verifier` key raises after the liveness score was already appended in
place, hence the mutated store in the `internalError` branch. -/
def process_frame (st : Store) (session_id : String) (decodeOk : Bool)
    (score : ℚ) (embedding : Option Vec) : Except Err FrameResponse × Store :=
  match getS st session_id with
  | none => (.error .sessionNotFound, st)
  | some session =>
    if decodeOk then
      match session.verifier with
      | none =>
        (.error .internalError,
          updS st session_id (fun s => { s with liveness_scores := s.liveness_scores ++ [score] }))
      | some verifier =>
        let s1 := { session with liveness_scores := session.liveness_scores ++ [score] }
        let idx := s1.challenge_index
        let step := verifier.verify_step idx
        let s2 := if step.1 then { s1 with challenge_index := idx + 1 } else s1
        let s3 := match embedding with
          | some e => { s2 with live_embedding := some e }
          | none => s2
        (.ok ⟨score, step.1, step.2⟩, updS st session_id (fun _ => s3))
    else (.error .decodeFailure, st)

/-- Net session mutation of a successful `process_frame` call: liveness score
appended, cursor advanced (the step always passes), live embedding overwritten
when the extractor returned one. -/
def frameUpdate (session : Session) (sc : ℚ) (e : Option Vec) : Session :=
  { session with
      liveness_scores := session.liveness_scores ++ [sc]
      challenge_index := session.challenge_index + 1
      live_embedding := match e with | some v => some v | none => session.live_embedding }

/-- Equation lemma: what `process_frame` does on an existing session whose
verifier key is present and whose frame decodes. -/
theorem process_frame_ok (st : Store) (id : String) (sc : ℚ) (e : Option Vec)
    (session : Session) (v : ChallengeVerifier)
    (hg : getS st id = some session) (hv : session.verifier = some v) :
    process_frame st id true sc e =
      (.ok ⟨sc, true, v.next_action (session.challenge_index + 1)⟩,
        updS st id (fun _ => frameUpdate session sc e)) := by
  cases e <;> simp [process_frame, hg, hv, ChallengeVerifier.verify_step, frameUpdate]

/-- Endpoint `id_upload`.  Oracle inputs: `decodeOk`, the OCR payload
(reduced to its raw text blob), and `idFace`: `none` when no face region was
detected, `some emb?` when one was, with `emb?` the embedding extracted from
the crop. -/
def id_upload (st : Store) (session_id : String) (decodeOk : Bool)
    (ocrText : String) (idFace : Option (Option Vec)) : Except Err IDUploadResponse × Store :=
  match getS st session_id with
  | none => (.error .sessionNotFound, st)
  | some _ =>
    if decodeOk then
      let st1 := match idFace with
        | some (some e) => updS st session_id (fun s => { s with id_face_embedding := some e })
        | _ => st
      let st2 := updS st1 session_id (fun s => { s with ocr_text := some ocrText })
      (.ok ⟨ocrText, idFace.isSome⟩, st2)
    else (.error .decodeFailure, st)

/-- Python `max` over a nonempty list. -/
def maxQ (x : ℚ) (xs : List ℚ) : ℚ := xs.foldl max x

/-- Python `min` over a nonempty list. -/
def minQ (x : ℚ) (xs : List ℚ) : ℚ := xs.foldl min x

/-- Endpoint `verify`.  `max(session.get("liveness_scores", [0]))` sees the
stored list (the key always exists), so an empty list raises `ValueError`,
modelled as `internalError`. -/
def verify (sqrt : ℚ → ℚ) (st : Store) (session_id : String) :
    Except Err VerifyResponse × Store :=
  match getS st session_id with
  | none => (.error .sessionNotFound, st)
  | some session =>
    match session.live_embedding, session.id_face_embedding with
    | some live_emb, some id_emb =>
      let sim := cosine_similarity sqrt live_emb id_emb
      match session.liveness_scores with
      | [] => (.error .internalError, st)
      | x :: xs =>
        let liveness_sc := maxQ x xs
        let challenges_done : Bool := decide (session.challenges.length ≤ session.challenge_index)
        let kyc_passed : Bool := decide ((8 : ℚ) / 10 < liveness_sc) && is_matchD sim && challenges_done
        let st1 := updS st session_id (fun s =>
          { s with status := if kyc_passed then "passed" else "failed"
                   match_score := some sim
                   liveness_score := some liveness_sc })
        (.ok ⟨sim, liveness_sc, kyc_passed⟩, st1)
    | _, _ => (.error .missingEmbeddings, st)

/-- One uploaded file of a `/social/upload` batch, reduced to the oracle
outcomes the endpoint branches on: the filename, the uuid generated for it,
whether decoding succeeded, and the embedding-extraction result. -/
structure UploadFileModel where
  filename : String
  imgId : String
  decodeOk : Bool
  embedding : Option Vec
deriving DecidableEq

/-- The per-file loop of `social_upload`: skip undecodable files entirely;
for a decodable file, collect `cosine_similarity live emb` when both an
embedding and a live embedding exist, then append the image record. -/
def social_upload_loop (sqrt : ℚ → ℚ) (live : Option Vec) (session_id : String) :
    List UploadFileModel → List ℚ → Store → List ℚ × Store
  | [], scores, st => (scores, st)
  | f :: fs, scores, st =>
    if f.decodeOk then
      let scores' := match f.embedding, live with
        | some emb, some lv => scores ++ [cosine_similarity sqrt lv emb]
        | _, _ => scores
      let st' := updS st session_id
        (fun s => { s with social_images := s.social_images ++ [⟨f.imgId, f.filename⟩] })
      social_upload_loop sqrt live session_id fs scores' st'
    else social_upload_loop sqrt live session_id fs scores st

/-- Endpoint `social_upload`. -/
def social_upload (sqrt : ℚ → ℚ) (st : Store) (session_id : String)
    (files : List UploadFileModel) : Except Err SocialResponse × Store :=
  match getS st session_id with
  | none => (.error .sessionNotFound, st)
  | some session =>
    let r := social_upload_loop sqrt session.live_embedding session_id files [] st
    let msc : ℚ := match r.1 with
      | [] => 1
      | x :: xs => minQ x xs
    let risk : ℚ := 1 - min 1 msc
    let st2 := updS r.2 session_id (fun s =>
      { s with social_match_score := some msc
               social_risk_score := some risk
               social_status := some "ok" })
    (.ok ⟨msc, risk, "ok"⟩, st2)

/-- What the og-scraping regexes found in fetched profile markup. -/
structure FetchedPage where
  og_image : Option String
  og_title : Option String
deriving DecidableEq

/-- The `match_score` computed by `social_check` for the proxy display image:
it starts at `1.0` and is replaced by the comparison result only when an
og:image url was found, its fetch and decode succeeded, an embedding was
extracted, and a live embedding exists — any failure leaves the best-case
default. -/
def proxyMatchScore (sqrt : ℚ → ℚ) (session : Session) (pfp_url : Option String)
    (pfpOutcome : Option (Option Vec)) : ℚ :=
  match pfp_url with
  | none => 1
  | some _ =>
    match pfpOutcome with
    | none => 1
    | some none => 1
    | some (some emb) =>
      match session.live_embedding with
      | none => 1
      | some lv => cosine_similarity sqrt lv emb

/-- Endpoint `social_check`.  Oracle inputs: `fetched` is the profile fetch
result (`none` when `requests.get` raised), and `pfpOutcome` describes the
proxy-image try-block: `none` when the image fetch or decode raised,
`some emb?` when it completed with embedding-extraction result `emb?`. -/
def social_check (sqrt : ℚ → ℚ) (st : Store) (session_id : String)
    (profile_url : String) (fetched : Option FetchedPage)
    (pfpOutcome : Option (Option Vec)) : Except Err SocialCheckResponse × Store :=
  match getS st session_id with
  | none => (.error .sessionNotFound, st)
  | some session =>
    match fetched with
    | none => (.error .failedFetch, st)
    | some page =>
      let pfp_url := page.og_image
      let username := page.og_title.getD profile_url
      let msc : ℚ := proxyMatchScore sqrt session pfp_url pfpOutcome
      let risk : ℚ := 1 - min 1 msc
      let st1 := updS st session_id (fun s =>
        { s with social_profile_url := some profile_url
                 social_match_score := some msc
                 social_risk_score := some risk
                 social_status := some "ok" })
      (.ok ⟨msc, risk, "ok", profile_url, username, pfp_url⟩, st1)

/-- Endpoint `admin_approve`: no session-existence check; `update_session`
is a silent no-op on an unknown id, and the confirmation is returned
unconditionally. -/
def admin_approve (st : Store) (session_id : String) : String × Store :=
  ("passed", updS st session_id (fun s => { s with status := "passed" }))

/-- Endpoint `admin_reject`: same shape as `admin_approve`, additionally
storing the failure reason. -/
def admin_reject (st : Store) (session_id : String) (reason : String) :
    (String × String) × Store :=
  (("failed", reason), updS st session_id (fun s => { s with status := "failed", failure_reason := some reason }))

/-- Lookup after an update: the targeted id sees the modified session, all
other ids are untouched. -/
theorem getS_updS (st : Store) (id idq : String) (f : Session → Session) :
    getS (updS st id f) idq = if idq = id then (getS st idq).map f else getS st idq := by
  induction st with
  | nil => by_cases h : idq = id <;> simp [getS, updS, h]
  | cons hd tl ih =>
    obtain ⟨k, s⟩ := hd
    by_cases hk : k = id
    · subst hk
      by_cases hq : k = idq
      · subst hq; simp [getS, updS]
      · have hq' : ¬ idq = k := fun h => hq h.symm
        simp [getS, updS, hq, hq']
    · by_cases hq : k = idq
      · subst hq
        simp [getS, updS, hk]
      · simp [getS, updS, hk, hq, ih]

/-- Special case of `getS_updS` at the updated id. -/
theorem getS_updS_self (st : Store) (id : String) (f : Session → Session) :
    getS (updS st id f) id = (getS st id).map f := by
  simp [getS_updS]

/-- Updating an id that is not in the store does nothing. -/
theorem updS_absent (st : Store) (id : String) (f : Session → Session)
    (h : getS st id = none) : updS st id f = st := by
  induction st with
  | nil => rfl
  | cons hd tl ih =>
    obtain ⟨k, s⟩ := hd
    by_cases hk : k = id
    · simp [getS, hk] at h
    · simp only [updS, if_neg hk]
      rw [ih (by simpa [getS, hk] using h)]

/-- Lookup after a dict assignment. -/
theorem getS_putS (st : Store) (id idq : String) (s : Session) :
    getS (putS st id s) idq = if id = idq then some s else getS st idq := rfl

/-- Invariant maintained by every endpoint: a live embedding is only set by
`process_frame`, which appends a liveness score first, and the stored
verifier holds exactly the session's challenge sequence. -/
def SessionWF (s : Session) : Prop :=
  (s.live_embedding ≠ none → s.liveness_scores ≠ []) ∧ s.verifier = some ⟨s.challenges⟩

/-- Every stored session is well-formed. -/
def StoreWF (st : Store) : Prop := ∀ id s, getS st id = some s → SessionWF s

theorem StoreWF_updS {st : Store} {id : String} {f : Session → Session}
    (h : StoreWF st) (hf : ∀ s, SessionWF s → SessionWF (f s)) :
    StoreWF (updS st id f) := by
  intro idq sq hq
  rw [getS_updS] at hq
  by_cases hc : idq = id
  · rw [if_pos hc] at hq
    obtain ⟨s0, hs0, rfl⟩ := Option.map_eq_some'.mp hq
    exact hf _ (h _ _ hs0)
  · rw [if_neg hc] at hq
    exact h _ _ hq

theorem StoreWF_updS_set {st : Store} {id : String} {s0 : Session}
    (h : StoreWF st) (hwf : SessionWF s0) : StoreWF (updS st id (fun _ => s0)) :=
  StoreWF_updS h (fun _ _ => hwf)

theorem StoreWF_putS {st : Store} {id : String} {s0 : Session}
    (h : StoreWF st) (hwf : SessionWF s0) : StoreWF (putS st id s0) := by
  intro idq sq hq
  rw [getS_putS] at hq
  by_cases hc : id = idq
  · rw [if_pos hc] at hq; cases hq; exact hwf
  · rw [if_neg hc] at hq; exact h _ _ hq

/-- Stores reachable through the HTTP API from the empty `SESSIONS` dict. -/
inductive Reachable : Store → Prop
  | empty : Reachable []
  | start (st : Store) (id : String) (seq : List String) :
      Reachable st → Reachable (start_kyc st id seq).2
  | frame (st : Store) (id : String) (d : Bool) (sc : ℚ) (e : Option Vec) :
      Reachable st → Reachable (process_frame st id d sc e).2
  | upload (st : Store) (id : String) (d : Bool) (t : String) (f : Option (Option Vec)) :
      Reachable st → Reachable (id_upload st id d t f).2
  | verified (sq : ℚ → ℚ) (st : Store) (id : String) :
      Reachable st → Reachable (verify sq st id).2
  | socialUp (sq : ℚ → ℚ) (st : Store) (id : String) (fs : List UploadFileModel) :
      Reachable st → Reachable (social_upload sq st id fs).2
  | socialChk (sq : ℚ → ℚ) (st : Store) (id : String) (u : String)
      (p : Option FetchedPage) (o : Option (Option Vec)) :
      Reachable st → Reachable (social_check sq st id u p o).2
  | approve (st : Store) (id : String) :
      Reachable st → Reachable (admin_approve st id).2
  | reject (st : Store) (id : String) (r : String) :
      Reachable st → Reachable (admin_reject st id r).2

/-- The social-upload loop only appends image records, so it preserves
store well-formedness. -/
theorem StoreWF_social_upload_loop (sqrt : ℚ → ℚ) (live : Option Vec) (id : String) :
    ∀ (files : List UploadFileModel) (scores : List ℚ) (st : Store), StoreWF st →
      StoreWF (social_upload_loop sqrt live id files scores st).2 := by
  intro files
  induction files with
  | nil => intro scores st h; exact h
  | cons f fs ih =>
    intro scores st h
    by_cases hd : f.decodeOk
    · simp only [social_upload_loop, hd, if_true]
      exact ih _ _ (StoreWF_updS h (fun s hs => ⟨hs.1, hs.2⟩))
    · simp only [social_upload_loop, hd, if_false]
      exact ih _ _ h

/-- Every reachable store is well-formed. -/
theorem reachable_wf : ∀ st : Store, Reachable st → StoreWF st := by
  intro st h
  induction h with
  | empty => intro id s hs; cases hs
  | start st id seq _ ih =>
    intro idq sq hq
    simp only [start_kyc, create_session] at hq
    rw [getS_updS] at hq
    by_cases hc : idq = id
    · rw [if_pos hc, hc, getS_putS, if_pos rfl] at hq
      cases hq
      exact ⟨fun hn => absurd rfl hn, rfl⟩
    · rw [if_neg hc, getS_putS, if_neg (fun h => hc h.symm)] at hq
      exact ih _ _ hq
  | frame st id d sc e _ ih =>
    rcases hg : getS st id with _ | session
    · simpa only [process_frame, hg] using ih
    · have hwf := ih _ _ hg
      cases d with
      | false => simpa only [process_frame, hg, Bool.false_eq_true, if_false] using ih
      | true =>
        rcases hv : session.verifier with _ | v
        · simp only [process_frame, hg, hv, if_true]
          exact StoreWF_updS ih (fun s hs => ⟨fun _ => by simp, hs.2⟩)
        · rw [process_frame_ok st id sc e session v hg hv]
          refine StoreWF_updS_set ih ⟨fun _ => ?_, ?_⟩
          · show session.liveness_scores ++ [sc] ≠ []
            simp
          · show session.verifier = some ⟨session.challenges⟩
            exact hwf.2
  | upload st id d t f _ ih =>
    rcases hg : getS st id with _ | session
    · simpa only [id_upload, hg] using ih
    · by_cases hd : d
      · have step1 : StoreWF (match f with
            | some (some e) => updS st id (fun s => { s with id_face_embedding := some e })
            | _ => st) := by
          rcases f with _ | e0
          · exact ih
          · rcases e0 with _ | e
            · exact ih
            · exact StoreWF_updS ih (fun s hs => ⟨hs.1, hs.2⟩)
        simp only [id_upload, hg, hd, if_true]
        exact StoreWF_updS step1 (fun s hs => ⟨hs.1, hs.2⟩)
      · simpa only [id_upload, hg, hd, if_false] using ih
  | verified sq st id _ ih =>
    rcases hg : getS st id with _ | session
    · simpa only [verify, hg] using ih
    · rcases hl : session.live_embedding with _ | lv
      · simpa only [verify, hg, hl] using ih
      · rcases hi : session.id_face_embedding with _ | iv
        · simpa only [verify, hg, hl, hi] using ih
        · rcases hs : session.liveness_scores with _ | ⟨x, xs⟩
          · simpa only [verify, hg, hl, hi, hs] using ih
          · simp only [verify, hg, hl, hi, hs]
            exact StoreWF_updS ih (fun s hsw => ⟨hsw.1, hsw.2⟩)
  | socialUp sq st id fs _ ih =>
    rcases hg : getS st id with _ | session
    · simpa only [social_upload, hg] using ih
    · simp only [social_upload, hg]
      exact StoreWF_updS (StoreWF_social_upload_loop sq _ id fs [] st ih)
        (fun s hs => ⟨hs.1, hs.2⟩)
  | socialChk sq st id u p o _ ih =>
    rcases hg : getS st id with _ | session
    · simpa only [social_check, hg] using ih
    · rcases p with _ | page
      · simpa only [social_check, hg] using ih
      · simp only [social_check, hg]
        exact StoreWF_updS ih (fun s hs => ⟨hs.1, hs.2⟩)
  | approve st id _ ih =>
    exact StoreWF_updS ih (fun s hs => ⟨hs.1, hs.2⟩)
  | reject st id r _ ih =>
    exact StoreWF_updS ih (fun s hs => ⟨hs.1, hs.2⟩)

/-- The verdict boolean computed inside `verify`. -/
def kycVerdict (sqrt : ℚ → ℚ) (s : Session) (live idv : Vec) (x : ℚ) (xs : List ℚ) : Bool :=
  decide ((8 : ℚ) / 10 < maxQ x xs) && is_matchD (cosine_similarity sqrt live idv) &&
    decide (s.challenges.length ≤ s.challenge_index)

/-- Equation lemma: what `verify` does when both embeddings are present and
the liveness list is nonempty. -/
theorem verify_ok (sqrt : ℚ → ℚ) (st : Store) (id : String) (s : Session)
    (live idv : Vec) (x : ℚ) (xs : List ℚ)
    (hg : getS st id = some s) (hl : s.live_embedding = some live)
    (hi : s.id_face_embedding = some idv) (hs : s.liveness_scores = x :: xs) :
    verify sqrt st id =
      (.ok ⟨cosine_similarity sqrt live idv, maxQ x xs, kycVerdict sqrt s live idv x xs⟩,
        updS st id (fun t =>
          { t with status := if kycVerdict sqrt s live idv x xs then "passed" else "failed"
                   match_score := some (cosine_similarity sqrt live idv)
                   liveness_score := some (maxQ x xs) })) := by
  simp [verify, hg, hl, hi, hs, kycVerdict]

/-- Spec-side convention for the final liveness score: Python `max` of the
list, read as 0 on the empty list (spec: "max(liveness_scores) (or 0 if
empty)"). -/
def specMaxOr0 : List ℚ → ℚ
  | [] => 0
  | x :: xs => maxQ x xs

/-- Square-root oracle used by the concrete witnesses; it is the true square
root on the only norm these witnesses compute, `dotQ v v = 25`. -/
def sqrt5 : ℚ → ℚ := fun _ => 5

/-- C8: with the default threshold 0.33, `is_match d` is true iff `d < 0.33`,
and at the boundary `d = 0.33` it is false (strict inequality). -/
theorem C8_is_match_strict_threshold (d : ℚ) :
    (is_matchD d = true ↔ d < 33 / 100) ∧ is_matchD (33 / 100) = false := by
  constructor
  · simp [is_matchD, is_match]
  · simp [is_matchD, is_match]

/-- C1: for every session holding both a live and an id-face embedding,
`verify` returns `kyc_passed = true` iff all three conjuncts hold — final
liveness score (max of the recorded scores, 0 when none) above 0.8, cosine
distance between the two embeddings below 0.33, and the challenge cursor at
or past the end of the sequence; no proper subset of the three suffices. -/
theorem C1_kyc_passed_iff_three_conjuncts (sqrt : ℚ → ℚ) (st : Store) (id : String)
    (s : Session) (live idv : Vec)
    (hg : getS st id = some s) (hl : s.live_embedding = some live)
    (hi : s.id_face_embedding = some idv) :
    (∃ r st2, verify sqrt st id = (.ok r, st2) ∧ r.kyc_passed = true) ↔
      (8 / 10 < specMaxOr0 s.liveness_scores ∧
        cosine_similarity sqrt live idv < 33 / 100 ∧
        s.challenges.length ≤ s.challenge_index) := by
  rcases hs : s.liveness_scores with _ | ⟨x, xs⟩
  · have hv : verify sqrt st id = (.error .internalError, st) := by
      simp [verify, hg, hl, hi, hs]
    constructor
    · rintro ⟨r, st2, hr, -⟩
      rw [hv] at hr
      simp at hr
    · rintro ⟨h1, -, -⟩
      norm_num [specMaxOr0] at h1
  · rw [verify_ok sqrt st id s live idv x xs hg hl hi hs]
    simp only [specMaxOr0]
    constructor
    · rintro ⟨r, st2, hr, hp⟩
      simp only [Prod.mk.injEq, Except.ok.injEq] at hr
      rw [← hr.1] at hp
      simpa [kycVerdict, is_matchD, is_match, and_assoc] using hp
    · intro hc
      refine ⟨_, _, rfl, ?_⟩
      simpa [kycVerdict, is_matchD, is_match, and_assoc] using hc

/-- Witness session for the C1 verdict: matching embeddings, one good
liveness score, completed single-challenge sequence. -/
def sessW1 : Session :=
  { freshSession ["blink"] with
      challenge_index := 1
      liveness_scores := [9 / 10]
      id_face_embedding := some [3, 4]
      live_embedding := some [3, 4]
      verifier := some ⟨["blink"]⟩ }

/-- Witness store for C1. -/
def stW1 : Store := [("sid", sessW1)]

/-- Witness for C1 at a concrete passing session. -/
theorem C1_kyc_passed_iff_three_conjuncts_witness :
    ∃ r st2, verify sqrt5 stW1 "sid" = (.ok r, st2) ∧ r.kyc_passed = true :=
  (C1_kyc_passed_iff_three_conjuncts sqrt5 stW1 "sid" sessW1 [3, 4] [3, 4]
    rfl rfl rfl).mpr
    (by norm_num [sessW1, freshSession, specMaxOr0, maxQ, cosine_similarity,
          normalizeV, dotQ, sqrt5])

/-- Python `max` of a nonempty list is a member of it. -/
theorem maxQ_mem (x : ℚ) (xs : List ℚ) : maxQ x xs ∈ x :: xs := by
  induction xs generalizing x with
  | nil => simp [maxQ]
  | cons y ys ih =>
    have h : maxQ x (y :: ys) = maxQ (max x y) ys := rfl
    rw [h]
    rcases List.mem_cons.mp (ih (max x y)) with h1 | h1
    · rcases max_choice x y with hm | hm
      · rw [h1, hm]; exact List.mem_cons_self _ _
      · rw [h1, hm]; exact List.mem_cons_of_mem _ (List.mem_cons_self _ _)
    · exact List.mem_cons_of_mem _ (List.mem_cons_of_mem _ h1)

/-- Python `max` of a nonempty list bounds every member. -/
theorem le_maxQ (x : ℚ) (xs : List ℚ) : ∀ y ∈ x :: xs, y ≤ maxQ x xs := by
  induction xs generalizing x with
  | nil =>
    intro y hy
    rw [List.mem_singleton.mp hy]
    exact le_refl _
  | cons z zs ih =>
    intro y hy
    have h : maxQ x (z :: zs) = maxQ (max x z) zs := rfl
    rw [h]
    rcases List.mem_cons.mp hy with hy1 | hy2
    · rw [hy1]
      exact le_trans (le_max_left x z) (ih (max x z) _ (List.mem_cons_self _ _))
    · rcases List.mem_cons.mp hy2 with hy21 | hy3
      · rw [hy21]
        exact le_trans (le_max_right x z) (ih (max x z) _ (List.mem_cons_self _ _))
      · exact ih (max x z) _ (List.mem_cons_of_mem _ hy3)

/-- Session with both embeddings present but no recorded liveness score. -/
def sessC7 : Session :=
  { freshSession ["blink"] with
      id_face_embedding := some [3, 4]
      live_embedding := some [3, 4]
      verifier := some ⟨["blink"]⟩ }

/-- Store direct witness for the C7 counterexample. -/
def stC7 : Store := [("s7", sessC7)]

/-- C7 counterexample: on a session holding both embeddings whose
`liveness_scores` list is empty, `verify` raises an uncaught error (the `[0]`
fallback in `max(session.get("liveness_scores", [0]))` never applies because
`create_session` always sets the key, so `max([])` raises `ValueError`)
instead of returning a verdict with liveness score 0. -/
theorem C7_counterexample :
    sessC7.live_embedding = some [3, 4] ∧ sessC7.id_face_embedding = some [3, 4] ∧
      sessC7.liveness_scores = [] ∧
      verify sqrt5 stC7 "s7" = (.error .internalError, stC7) :=
  ⟨rfl, rfl, rfl, rfl⟩

/-- C7 amended: for every session with both embeddings and a nonempty
liveness list, `verify` returns a verdict whose final liveness score is the
maximum of `liveness_scores`; on an empty list it fails with an internal
error rather than returning 0 (no API-reachable session hits that case, as
a live embedding implies a previously appended score). -/
theorem C7_liveness_final_is_max (sqrt : ℚ → ℚ) (st : Store) (id : String)
    (s : Session) (live idv : Vec)
    (hg : getS st id = some s) (hl : s.live_embedding = some live)
    (hi : s.id_face_embedding = some idv) (hne : s.liveness_scores ≠ []) :
    ∃ r st2, verify sqrt st id = (.ok r, st2) ∧
      r.liveness_score_final ∈ s.liveness_scores ∧
      ∀ y ∈ s.liveness_scores, y ≤ r.liveness_score_final := by
  rcases hs : s.liveness_scores with _ | ⟨x, xs⟩
  · exact absurd hs hne
  · rw [verify_ok sqrt st id s live idv x xs hg hl hi hs]
    exact ⟨_, _, rfl, maxQ_mem x xs, le_maxQ x xs⟩

/-- Witness for the amended C7 at a concrete session. -/
theorem C7_liveness_final_is_max_witness :
    ∃ r st2, verify sqrt5 stW1 "sid" = (.ok r, st2) ∧
      r.liveness_score_final ∈ sessW1.liveness_scores ∧
      ∀ y ∈ sessW1.liveness_scores, y ≤ r.liveness_score_final :=
  C7_liveness_final_is_max sqrt5 stW1 "sid" sessW1 [3, 4] [3, 4] rfl rfl rfl
    (by simp [sessW1, freshSession])

/-- Three-challenge sequence used by the C2 trace. -/
def seqA : List String := ["blink", "turn_left", "turn_right"]

/-- Store after `start` with the three-challenge sequence. -/
def stA0 : Store := (start_kyc [] "sid" seqA).2

/-- The session stored by `stA0`. -/
def sessA0 : Session := { freshSession seqA with verifier := some ⟨seqA⟩ }

/-- One frame call against the session of `stA0`. -/
def frameStep (st : Store) : Store := (process_frame st "sid" true (9 / 10) (some [3, 4])).2

/-- Store after four frame calls on the three-challenge session. -/
def stA4 : Store := frameStep (frameStep (frameStep (frameStep stA0)))

/-- The session stored by `stA4`: the cursor stands at 4 on a length-3
sequence. -/
def sessA4 : Session :=
  { freshSession seqA with
      challenge_index := 4
      liveness_scores := [9 / 10, 9 / 10, 9 / 10, 9 / 10]
      live_embedding := some [3, 4]
      verifier := some ⟨seqA⟩ }

/-- C2 counterexample: the fourth frame call, made when `challenge_index`
already equals `len(challenge_sequence) = 3`, pushes the cursor to 4 — the
claimed invariant `challenge_index ≤ len(challenge_sequence)` fails, because
`verify_step` passes unconditionally and the cursor is never clamped. -/
theorem C2_counterexample :
    getS stA4 "sid" = some sessA4 ∧
      ¬ (sessA4.challenge_index ≤ sessA4.challenges.length) :=
  ⟨rfl, by decide⟩

/-- C2 amended: `challenge_index` is monotonically non-decreasing — every
successful frame call advances it by exactly one and nothing decreases it —
and it is a natural number, but it is not bounded by the sequence length: a
frame call at `challenge_index = len(challenge_sequence)` moves it to
`len + 1`. -/
theorem C2_cursor_increments_by_one (st : Store) (id : String) (d : Bool)
    (sc : ℚ) (e : Option Vec) (s : Session) (r : FrameResponse) (st2 : Store)
    (hg : getS st id = some s)
    (hok : process_frame st id d sc e = (.ok r, st2)) :
    ∃ s2, getS st2 id = some s2 ∧ s2.challenge_index = s.challenge_index + 1 ∧
      s2.challenges = s.challenges := by
  cases d
  · simp [process_frame, hg] at hok
  · rcases hv : s.verifier with _ | v
    · simp [process_frame, hg, hv] at hok
    · rw [process_frame_ok st id sc e s v hg hv] at hok
      injection hok with h1 h2
      refine ⟨frameUpdate s sc e, ?_, rfl, rfl⟩
      rw [← h2, getS_updS_self, hg]
      rfl

/-- Witness for the amended C2: the first frame call on a fresh session moves
the cursor from 0 to 1. -/
theorem C2_cursor_increments_by_one_witness :
    ∃ s2, getS (frameStep stA0) "sid" = some s2 ∧
      s2.challenge_index = sessA0.challenge_index + 1 ∧
      s2.challenges = sessA0.challenges :=
  C2_cursor_increments_by_one stA0 "sid" true (9 / 10) (some [3, 4]) sessA0
    ⟨9 / 10, true, "turn_left"⟩ (frameStep stA0) rfl rfl

/-- Equation lemma: a decodable frame on a session whose `verifier` key is
missing appends the liveness score in place and then raises. -/
theorem process_frame_no_verifier (st : Store) (id : String) (sc : ℚ) (e : Option Vec)
    (session : Session) (hg : getS st id = some session) (hv : session.verifier = none) :
    process_frame st id true sc e =
      (.error .internalError,
        updS st id (fun s => { s with liveness_scores := s.liveness_scores ++ [sc] })) := by
  simp [process_frame, hg, hv]

/-- An update step whose function preserves `status` on the stored session
preserves the status at every id. -/
theorem status_updS_point (st : Store) (id : String) (f : Session → Session)
    (h : ∀ s, getS st id = some s → (f s).status = s.status) (idq : String) :
    (getS (updS st id f) idq).map Session.status = (getS st idq).map Session.status := by
  rw [getS_updS]
  by_cases hc : idq = id
  · rw [if_pos hc, hc]
    rcases hgs : getS st id with _ | s
    · rfl
    · simp [h s hgs]
  · rw [if_neg hc]

/-- `process_frame` never touches `status`. -/
theorem process_frame_preserves_status (st : Store) (id : String) (d : Bool)
    (sc : ℚ) (e : Option Vec) (idq : String) :
    (getS (process_frame st id d sc e).2 idq).map Session.status =
      (getS st idq).map Session.status := by
  rcases hg : getS st id with _ | s
  · simp [process_frame, hg]
  · cases d
    · simp [process_frame, hg]
    · rcases hv : s.verifier with _ | v
      · rw [process_frame_no_verifier st id sc e s hg hv]
        refine status_updS_point st id _ (fun t ht => ?_) idq
        rfl
      · rw [process_frame_ok st id sc e s v hg hv]
        refine status_updS_point st id _ (fun t ht => ?_) idq
        rw [hg] at ht
        injection ht with ht
        rw [← ht]
        rfl

/-- `id_upload` never touches `status`. -/
theorem id_upload_preserves_status (st : Store) (id : String) (d : Bool)
    (t : String) (f : Option (Option Vec)) (idq : String) :
    (getS (id_upload st id d t f).2 idq).map Session.status =
      (getS st idq).map Session.status := by
  rcases hg : getS st id with _ | s
  · simp [id_upload, hg]
  · cases d
    · simp [id_upload, hg]
    · rcases f with _ | e0
      · simp only [id_upload, hg, if_true]
        refine status_updS_point st id _ (fun t ht => ?_) idq
        rfl
      · rcases e0 with _ | e
        · simp only [id_upload, hg, if_true]
          refine status_updS_point st id _ (fun t ht => ?_) idq
          rfl
        · simp only [id_upload, hg, if_true]
          refine Eq.trans (status_updS_point _ id _ (fun t ht => ?_) idq) ?_
          · rfl
          · refine status_updS_point st id _ (fun t ht => ?_) idq
            rfl

/-- The social-upload loop never touches `status`. -/
theorem social_upload_loop_preserves_status (sqrt : ℚ → ℚ) (live : Option Vec)
    (sid : String) :
    ∀ (files : List UploadFileModel) (scores : List ℚ) (st : Store) (idq : String),
      (getS (social_upload_loop sqrt live sid files scores st).2 idq).map Session.status =
        (getS st idq).map Session.status := by
  intro files
  induction files with
  | nil => intro scores st idq; rfl
  | cons f fs ih =>
    intro scores st idq
    by_cases hd : f.decodeOk
    · simp only [social_upload_loop, hd, if_true]
      rw [ih]
      refine status_updS_point st sid _ (fun t ht => ?_) idq
      rfl
    · simp only [social_upload_loop, hd, if_false]
      exact ih _ _ _

/-- `social_upload` never touches `status`. -/
theorem social_upload_preserves_status (sqrt : ℚ → ℚ) (st : Store) (id : String)
    (files : List UploadFileModel) (idq : String) :
    (getS (social_upload sqrt st id files).2 idq).map Session.status =
      (getS st idq).map Session.status := by
  rcases hg : getS st id with _ | s
  · simp [social_upload, hg]
  · simp only [social_upload, hg]
    refine Eq.trans (status_updS_point _ id _ (fun t ht => ?_) idq) ?_
    · rfl
    · exact social_upload_loop_preserves_status sqrt s.live_embedding id files [] st idq

/-- `social_check` never touches `status`. -/
theorem social_check_preserves_status (sqrt : ℚ → ℚ) (st : Store) (id : String)
    (url : String) (page : Option FetchedPage) (out : Option (Option Vec)) (idq : String) :
    (getS (social_check sqrt st id url page out).2 idq).map Session.status =
      (getS st idq).map Session.status := by
  rcases hg : getS st id with _ | s
  · simp [social_check, hg]
  · rcases page with _ | pg
    · simp [social_check, hg]
    · simp only [social_check, hg]
      refine status_updS_point st id _ (fun t ht => ?_) idq
      rfl

/-- A successful `verify` always leaves the session with a terminal status. -/
theorem verify_writes_terminal_status (sqrt : ℚ → ℚ) (st : Store) (id : String)
    (r : VerifyResponse) (st2 : Store) (s2 : Session)
    (hok : verify sqrt st id = (.ok r, st2)) (hg2 : getS st2 id = some s2) :
    s2.status = "passed" ∨ s2.status = "failed" := by
  rcases hg : getS st id with _ | s
  · simp [verify, hg] at hok
  · rcases hl : s.live_embedding with _ | live
    · rcases hi : s.id_face_embedding with _ | idv <;> simp [verify, hg, hl, hi] at hok
    · rcases hi : s.id_face_embedding with _ | idv
      · simp [verify, hg, hl, hi] at hok
      · rcases hsc : s.liveness_scores with _ | ⟨x, xs⟩
        · simp [verify, hg, hl, hi, hsc] at hok
        · rw [verify_ok sqrt st id s live idv x xs hg hl hi hsc] at hok
          injection hok with h1 h2
          rw [← h2, getS_updS_self, hg] at hg2
          injection hg2 with hg2
          rw [← hg2]
          by_cases hverd : kycVerdict sqrt s live idv x xs = true
          · left; simp [hverd]
          · right; simp [hverd]

/-- Store after `start` with a single-challenge sequence. -/
def stB0 : Store := (start_kyc [] "sid" ["blink"]).2

/-- Store after one frame (score 0.9, live embedding `[3, 4]`). -/
def stB1 : Store := (process_frame stB0 "sid" true (9 / 10) (some [3, 4])).2

/-- Store after a document upload carrying the id-face embedding `[-3, -4]`. -/
def stB2 : Store := (id_upload stB1 "sid" true "raw" (some (some [-3, -4]))).2

/-- The session stored by `stB2`. -/
def sessB2 : Session :=
  { freshSession ["blink"] with
      challenge_index := 1
      liveness_scores := [9 / 10]
      live_embedding := some [3, 4]
      id_face_embedding := some [-3, -4]
      ocr_text := some "raw"
      verifier := some ⟨["blink"]⟩ }

/-- The store `stB2` is reachable through the API. -/
theorem reachable_stB2 : Reachable stB2 :=
  Reachable.upload stB1 "sid" true "raw" (some (some [-3, -4]))
    (Reachable.frame stB0 "sid" true (9 / 10) (some [3, 4])
      (Reachable.start [] "sid" ["blink"] Reachable.empty))

/-- Store after an admin approval of the `stB2` session: status "passed". -/
def stB3 : Store := (admin_approve stB2 "sid").2

/-- The session stored by `stB3`. -/
def sessB3 : Session := { sessB2 with status := "passed" }

/-- The session written back by `verify` on `stB3`. -/
def sessB4 : Session :=
  { sessB3 with
      status := if kycVerdict sqrt5 sessB3 [3, 4] [-3, -4] (9 / 10) [] then "passed" else "failed"
      match_score := some (cosine_similarity sqrt5 [3, 4] [-3, -4])
      liveness_score := some (maxQ (9 / 10) []) }

/-- C4 counterexample: the `stB3` session already carries the terminal status
"passed", yet a subsequent `verify` call — a pipeline operation, not an admin
override — recomputes the verdict from the mismatched embeddings and rewrites
the status to "failed". -/
theorem C4_counterexample :
    (getS stB3 "sid").map Session.status = some "passed" ∧
      (getS (verify sqrt5 stB3 "sid").2 "sid").map Session.status = some "failed" := by
  constructor
  · rfl
  · have hne : ¬ (cosine_similarity sqrt5 [3, 4] [-3, -4] < 33 / 100) := by
      norm_num [cosine_similarity, normalizeV, dotQ, sqrt5]
    have hverd : kycVerdict sqrt5 sessB3 [3, 4] [-3, -4] (9 / 10) [] = false := by
      simp [kycVerdict, is_matchD, is_match, hne]
    have hv := verify_ok sqrt5 stB3 "sid" sessB3 [3, 4] [-3, -4] (9 / 10) [] rfl rfl rfl rfl
    have h3 : getS stB3 "sid" = some sessB3 := rfl
    rw [hv]
    simp only [getS_updS_self, h3, Option.map_some']
    simp [hverd]

/-- C4 amended: via the pipeline a session's status only ever lands on passed
or failed — a successful `verify` always writes one of the two terminal
statuses (never pending), and no other pipeline stage touches `status` — but
`verify` overwrites the status unconditionally on every call, so a terminal
status can be rewritten by a repeated `verify` as well as by admin override. -/
theorem C4_pipeline_status_transitions (sqrt : ℚ → ℚ) (st : Store) (id : String) :
    (∀ r st2 s2, verify sqrt st id = (.ok r, st2) → getS st2 id = some s2 →
      s2.status = "passed" ∨ s2.status = "failed") ∧
    (∀ d sc e idq, (getS (process_frame st id d sc e).2 idq).map Session.status =
      (getS st idq).map Session.status) ∧
    (∀ d t f idq, (getS (id_upload st id d t f).2 idq).map Session.status =
      (getS st idq).map Session.status) ∧
    (∀ files idq, (getS (social_upload sqrt st id files).2 idq).map Session.status =
      (getS st idq).map Session.status) ∧
    (∀ url page out idq, (getS (social_check sqrt st id url page out).2 idq).map Session.status =
      (getS st idq).map Session.status) :=
  ⟨fun r st2 s2 h1 h2 => verify_writes_terminal_status sqrt st id r st2 s2 h1 h2,
   fun d sc e idq => process_frame_preserves_status st id d sc e idq,
   fun d t f idq => id_upload_preserves_status st id d t f idq,
   fun files idq => social_upload_preserves_status sqrt st id files idq,
   fun url page out idq => social_check_preserves_status sqrt st id url page out idq⟩

/-- Witness for the amended C4: the verify call on the approved `stB3`
session leaves a terminal status. -/
theorem C4_pipeline_status_transitions_witness :
    sessB4.status = "passed" ∨ sessB4.status = "failed" :=
  (C4_pipeline_status_transitions sqrt5 stB3 "sid").1
    ⟨cosine_similarity sqrt5 [3, 4] [-3, -4], maxQ (9 / 10) [],
      kycVerdict sqrt5 sessB3 [3, 4] [-3, -4] (9 / 10) []⟩
    (updS stB3 "sid" (fun t =>
      { t with status := if kycVerdict sqrt5 sessB3 [3, 4] [-3, -4] (9 / 10) []
                          then "passed" else "failed"
               match_score := some (cosine_similarity sqrt5 [3, 4] [-3, -4])
               liveness_score := some (maxQ (9 / 10) []) }))
    sessB4
    (verify_ok sqrt5 stB3 "sid" sessB3 [3, 4] [-3, -4] (9 / 10) [] rfl rfl rfl rfl)
    rfl

/-- C5: on every API-reachable store and existing session, `verify` fails
with the missing-embeddings client error iff the live or the id-face
embedding is absent; the error leaves the store untouched; and with both
embeddings present it always returns a verdict. -/
theorem C5_missing_embeddings_error (sqrt : ℚ → ℚ) (st : Store) (id : String)
    (s : Session) (hr : Reachable st) (hg : getS st id = some s) :
    ((verify sqrt st id).1 = .error .missingEmbeddings ↔
      (s.live_embedding = none ∨ s.id_face_embedding = none)) ∧
    ((verify sqrt st id).1 = .error .missingEmbeddings → (verify sqrt st id).2 = st) ∧
    (∀ live idv, s.live_embedding = some live → s.id_face_embedding = some idv →
      ∃ r st2, verify sqrt st id = (.ok r, st2)) := by
  have hwf := reachable_wf st hr id s hg
  rcases hl : s.live_embedding with _ | live
  · have he : verify sqrt st id = (.error .missingEmbeddings, st) := by
      rcases hi : s.id_face_embedding with _ | iv <;> simp [verify, hg, hl, hi]
    rw [he]
    refine ⟨by simp, fun _ => rfl, ?_⟩
    intro live idv h1 _
    exact Option.noConfusion h1
  · rcases hi : s.id_face_embedding with _ | idv
    · have he : verify sqrt st id = (.error .missingEmbeddings, st) := by
        simp [verify, hg, hl, hi]
      rw [he]
      refine ⟨by simp, fun _ => rfl, ?_⟩
      intro live2 idv2 _ h2
      exact Option.noConfusion h2
    · have hne : s.liveness_scores ≠ [] := hwf.1 (by simp [hl])
      rcases hsc : s.liveness_scores with _ | ⟨x, xs⟩
      · exact absurd hsc hne
      · rw [verify_ok sqrt st id s live idv x xs hg hl hi hsc]
        refine ⟨by simp, by simp, ?_⟩
        intro l2 i2 _ _
        exact ⟨_, _, rfl⟩

/-- Witness for C5 at the reachable store `stB2`, which holds both
embeddings. -/
theorem C5_missing_embeddings_error_witness :
    ((verify sqrt5 stB2 "sid").1 = .error .missingEmbeddings ↔
      (sessB2.live_embedding = none ∨ sessB2.id_face_embedding = none)) ∧
    ((verify sqrt5 stB2 "sid").1 = .error .missingEmbeddings →
      (verify sqrt5 stB2 "sid").2 = stB2) ∧
    (∀ live idv, sessB2.live_embedding = some live → sessB2.id_face_embedding = some idv →
      ∃ r st2, verify sqrt5 stB2 "sid" = (.ok r, st2)) :=
  C5_missing_embeddings_error sqrt5 stB2 "sid" sessB2 reachable_stB2 rfl

/-- C10: after every successful frame call on a reachable store, the returned
`next_action` is the challenge label at the session's updated cursor when the
cursor is still inside the sequence, and the sentinel `"upload_id"` once it
has reached or passed the end. -/
theorem C10_next_action_tracks_new_cursor (st : Store) (id : String) (d : Bool)
    (sc : ℚ) (e : Option Vec) (s : Session) (r : FrameResponse) (st2 : Store)
    (hr : Reachable st) (hg : getS st id = some s)
    (hok : process_frame st id d sc e = (.ok r, st2)) :
    ∃ s2, getS st2 id = some s2 ∧
      r.next_action = (if s2.challenge_index < s2.challenges.length
        then s2.challenges.getD s2.challenge_index "" else "upload_id") := by
  have hwf := reachable_wf st hr id s hg
  cases d
  · simp [process_frame, hg] at hok
  · rw [process_frame_ok st id sc e s ⟨s.challenges⟩ hg hwf.2] at hok
    injection hok with h1 h2
    injection h1 with h1
    refine ⟨frameUpdate s sc e, ?_, ?_⟩
    · rw [← h2, getS_updS_self, hg]
      rfl
    · rw [← h1]
      simp only [ChallengeVerifier.next_action, frameUpdate]
      by_cases hlen : s.challenge_index + 1 < s.challenges.length
      · simp [hlen, not_le.mpr hlen]
      · simp [hlen, not_lt.mp hlen]

/-- Witness for C10: the first frame call on the fresh three-challenge
session returns the label at the new cursor position 1. -/
theorem C10_next_action_tracks_new_cursor_witness :
    ∃ s2, getS (frameStep stA0) "sid" = some s2 ∧
      (⟨9 / 10, true, "turn_left"⟩ : FrameResponse).next_action =
        (if s2.challenge_index < s2.challenges.length
          then s2.challenges.getD s2.challenge_index "" else "upload_id") :=
  C10_next_action_tracks_new_cursor stA0 "sid" true (9 / 10) (some [3, 4]) sessA0
    ⟨9 / 10, true, "turn_left"⟩ (frameStep stA0)
    (Reachable.start [] "sid" seqA Reachable.empty) rfl rfl

/-- C6 counterexample: admin approval and rejection of an unknown session id
return their success confirmations and mutate nothing — no SessionNotFound
failure is raised. -/
theorem C6_counterexample :
    getS ([] : Store) "ghost" = none ∧
      admin_approve [] "ghost" = ("passed", []) ∧
      admin_reject [] "ghost" "bad" = (("failed", "bad"), []) :=
  ⟨rfl, rfl, rfl⟩

/-- C6 amended: on an unknown session id all four pipeline stage operations
and both social operations fail with SessionNotFound, but the admin override
endpoints perform no existence check: they report success while mutating
nothing. -/
theorem C6_admin_override_skips_existence_check (sqrt : ℚ → ℚ) (st : Store)
    (id reason : String) (d : Bool) (sc : ℚ) (e : Option Vec) (t : String)
    (f : Option (Option Vec)) (files : List UploadFileModel) (url : String)
    (page : Option FetchedPage) (out : Option (Option Vec))
    (hg : getS st id = none) :
    admin_approve st id = ("passed", st) ∧
    admin_reject st id reason = (("failed", reason), st) ∧
    process_frame st id d sc e = (.error .sessionNotFound, st) ∧
    id_upload st id d t f = (.error .sessionNotFound, st) ∧
    verify sqrt st id = (.error .sessionNotFound, st) ∧
    social_upload sqrt st id files = (.error .sessionNotFound, st) ∧
    social_check sqrt st id url page out = (.error .sessionNotFound, st) := by
  refine ⟨?_, ?_, ?_, ?_, ?_, ?_, ?_⟩
  · simp [admin_approve, updS_absent st id _ hg]
  · simp [admin_reject, updS_absent st id _ hg]
  · simp [process_frame, hg]
  · simp [id_upload, hg]
  · simp [verify, hg]
  · simp [social_upload, hg]
  · simp [social_check, hg]

/-- Witness for the amended C6 at a store that does hold a session, just not
the queried one. -/
theorem C6_admin_override_skips_existence_check_witness :
    admin_approve stW1 "ghost" = ("passed", stW1) ∧
    admin_reject stW1 "ghost" "bad" = (("failed", "bad"), stW1) ∧
    process_frame stW1 "ghost" true (9 / 10) none = (.error .sessionNotFound, stW1) ∧
    id_upload stW1 "ghost" true "raw" none = (.error .sessionNotFound, stW1) ∧
    verify sqrt5 stW1 "ghost" = (.error .sessionNotFound, stW1) ∧
    social_upload sqrt5 stW1 "ghost" [] = (.error .sessionNotFound, stW1) ∧
    social_check sqrt5 stW1 "ghost" "u" none none = (.error .sessionNotFound, stW1) :=
  C6_admin_override_skips_existence_check sqrt5 stW1 "ghost" "bad" true (9 / 10) none
    "raw" none [] "u" none none rfl

/-- Whenever any stage of the proxy-image pipeline fails — no og:image URL,
the image fetch or decode raised, no embedding extracted, or no live
embedding — the proxy match score is the best-case default 1. -/
theorem proxyMatchScore_fail_open (sqrt : ℚ → ℚ) (s : Session)
    (pfp : Option String) (out : Option (Option Vec))
    (hfail : pfp = none ∨ out = none ∨ out = some none ∨ s.live_embedding = none) :
    proxyMatchScore sqrt s pfp out = 1 := by
  rcases hpi : pfp with _ | u
  · rfl
  · rcases hfail with h | h | h | h
    · rw [hpi] at h
      exact Option.noConfusion h
    · rw [h]
      rfl
    · rw [h]
      rfl
    · rcases out with _ | oe
      · rfl
      · rcases oe with _ | emb
        · rfl
        · simp [proxyMatchScore, h]

/-- Equation lemma: `social_check` on an existing session with a successful
profile fetch. -/
theorem social_check_ok (sqrt : ℚ → ℚ) (st : Store) (id : String) (url : String)
    (page : FetchedPage) (out : Option (Option Vec)) (s : Session)
    (hg : getS st id = some s) :
    social_check sqrt st id url (some page) out =
      (.ok ⟨proxyMatchScore sqrt s page.og_image out,
            1 - min 1 (proxyMatchScore sqrt s page.og_image out), "ok", url,
            page.og_title.getD url, page.og_image⟩,
        updS st id (fun t =>
          { t with social_profile_url := some url
                   social_match_score := some (proxyMatchScore sqrt s page.og_image out)
                   social_risk_score := some (1 - min 1 (proxyMatchScore sqrt s page.og_image out))
                   social_status := some "ok" })) := by
  simp [social_check, hg]

/-- C9: on every existing session, `social_check` surfaces a failing profile
fetch as a client error, but when the profile fetch succeeds and the
proxy-image extraction or comparison fails at any point it fails open: it
returns and persists `match_score = 1`, `risk_score = 0` and social status
"ok". -/
theorem C9_social_check_fail_open (sqrt : ℚ → ℚ) (st : Store) (id : String)
    (url : String) (page : FetchedPage) (out : Option (Option Vec)) (s : Session)
    (hg : getS st id = some s)
    (hfail : page.og_image = none ∨ out = none ∨ out = some none ∨
      s.live_embedding = none) :
    social_check sqrt st id url none out = (.error .failedFetch, st) ∧
    ∃ r st2, social_check sqrt st id url (some page) out = (.ok r, st2) ∧
      r.social_match_score = 1 ∧ r.social_risk_score = 0 ∧ r.social_status = "ok" ∧
      ∃ s2, getS st2 id = some s2 ∧ s2.social_match_score = some 1 ∧
        s2.social_risk_score = some 0 ∧ s2.social_status = some "ok" ∧
        s2.social_profile_url = some url := by
  have hm := proxyMatchScore_fail_open sqrt s page.og_image out hfail
  constructor
  · simp [social_check, hg]
  · rw [social_check_ok sqrt st id url page out s hg]
    refine ⟨_, _, rfl, hm, ?_, rfl, ?_⟩
    · rw [hm]
      norm_num
    · refine ⟨{ s with
          social_profile_url := some url
          social_match_score := some (proxyMatchScore sqrt s page.og_image out)
          social_risk_score := some (1 - min 1 (proxyMatchScore sqrt s page.og_image out))
          social_status := some "ok" }, ?_, ?_, ?_, ?_, ?_⟩
      · rw [getS_updS_self, hg]
        rfl
      · rw [hm]
      · rw [hm]
        norm_num
      · rfl
      · rfl

/-- Witness for C9: a fetched page with no og:image on the concrete store. -/
theorem C9_social_check_fail_open_witness :
    social_check sqrt5 stW1 "sid" "u" none none = (.error .failedFetch, stW1) ∧
    ∃ r st2, social_check sqrt5 stW1 "sid" "u" (some ⟨none, none⟩) none = (.ok r, st2) ∧
      r.social_match_score = 1 ∧ r.social_risk_score = 0 ∧ r.social_status = "ok" ∧
      ∃ s2, getS st2 "sid" = some s2 ∧ s2.social_match_score = some 1 ∧
        s2.social_risk_score = some 0 ∧ s2.social_status = some "ok" ∧
        s2.social_profile_url = some "u" :=
  C9_social_check_fail_open sqrt5 stW1 "sid" "u" ⟨none, none⟩ none sessW1 rfl
    (Or.inl rfl)

/-- Lookup after an update at a different id. -/
theorem getS_updS_ne (st : Store) (id idq : String) (f : Session → Session)
    (h : idq ≠ id) : getS (updS st id f) idq = getS st idq := by
  rw [getS_updS, if_neg h]

/-- Values collected by the social-upload loop, declaratively: one
`cosine_similarity` output (i.e. one cosine distance) per decodable file with
an extracted embedding, in batch order. -/
def collectedScores (sqrt : ℚ → ℚ) (live : Vec) (files : List UploadFileModel) : List ℚ :=
  (files.filter (fun f => f.decodeOk)).filterMap
    (fun f => f.embedding.map (fun e => cosine_similarity sqrt live e))

/-- Image records appended by a social-upload batch: one per decodable file,
in batch order. -/
def acceptedImages (files : List UploadFileModel) : List SocialImage :=
  (files.filter (fun f => f.decodeOk)).map (fun f => ⟨f.imgId, f.filename⟩)

/-- Python `min` of a list, read as 1 on the empty list, as `social_upload`
does via `min(scores) if scores else 1.0`. -/
def minOr1 : List ℚ → ℚ
  | [] => 1
  | x :: xs => minQ x xs

/-- The social-upload loop, characterized declaratively: it returns the
already-collected scores extended by one distance per usable file, and its
only store effect is appending the accepted image records to the session. -/
theorem social_upload_loop_spec (sqrt : ℚ → ℚ) (live : Vec) (sid : String) :
    ∀ (files : List UploadFileModel) (scores : List ℚ) (st : Store),
      (social_upload_loop sqrt (some live) sid files scores st).1 =
        scores ++ collectedScores sqrt live files ∧
      ∀ idq, getS (social_upload_loop sqrt (some live) sid files scores st).2 idq =
        (if idq = sid
          then (getS st idq).map (fun s =>
            { s with social_images := s.social_images ++ acceptedImages files })
          else getS st idq) := by
  intro files
  induction files with
  | nil =>
    intro scores st
    refine ⟨by simp [social_upload_loop, collectedScores], ?_⟩
    intro idq
    by_cases hc : idq = sid
    · rw [if_pos hc]
      show getS st idq = _
      cases hgs : getS st idq <;> simp [acceptedImages]
    · rw [if_neg hc]
      rfl
  | cons f fs ih =>
    intro scores st
    by_cases hd : f.decodeOk
    · rcases he : f.embedding with _ | emb
      · simp only [social_upload_loop, hd, if_true, he]
        obtain ⟨ih1, ih2⟩ := ih scores (updS st sid
          (fun s => { s with social_images := s.social_images ++ [⟨f.imgId, f.filename⟩] }))
        refine ⟨?_, ?_⟩
        · rw [ih1]
          congr 1
          simp [collectedScores, hd, he]
        · intro idq
          rw [ih2 idq]
          by_cases hc : idq = sid
          · rw [if_pos hc, if_pos hc, hc, getS_updS_self]
            cases hgs : getS st sid <;>
              simp [acceptedImages, hd, List.append_assoc]
          · rw [if_neg hc, if_neg hc, getS_updS_ne st sid idq _ hc]
      · simp only [social_upload_loop, hd, if_true, he]
        obtain ⟨ih1, ih2⟩ := ih (scores ++ [cosine_similarity sqrt live emb]) (updS st sid
          (fun s => { s with social_images := s.social_images ++ [⟨f.imgId, f.filename⟩] }))
        refine ⟨?_, ?_⟩
        · rw [ih1]
          simp [collectedScores, hd, he, List.append_assoc]
        · intro idq
          rw [ih2 idq]
          by_cases hc : idq = sid
          · rw [if_pos hc, if_pos hc, hc, getS_updS_self]
            cases hgs : getS st sid <;>
              simp [acceptedImages, hd, List.append_assoc]
          · rw [if_neg hc, if_neg hc, getS_updS_ne st sid idq _ hc]
    · simp only [social_upload_loop, hd, Bool.false_eq_true, if_false]
      obtain ⟨ih1, ih2⟩ := ih scores st
      refine ⟨?_, ?_⟩
      · rw [ih1]
        congr 1
        simp [collectedScores, hd]
      · intro idq
        rw [ih2 idq]
        by_cases hc : idq = sid
        · rw [if_pos hc, if_pos hc]
          congr 2
          funext s
          simp [acceptedImages, hd]
        · rw [if_neg hc, if_neg hc]

/-- C3 amended: for every social-upload batch on an existing session with a
live embedding, the value collected per usable image is the output of the
code's `cosine_similarity` — the cosine distance itself, where lower means
more similar, not `1 − distance`; the aggregate `match_score` is the minimum
of the collected values (1 when no usable image was found), the risk score is
`1 − min(1, match_score)`, and exactly the decodable images are appended to
`social_images`. -/
theorem C3_social_upload_aggregates_distances (sqrt : ℚ → ℚ) (st : Store) (id : String)
    (s : Session) (live : Vec) (files : List UploadFileModel)
    (hg : getS st id = some s) (hl : s.live_embedding = some live) :
    ∃ r st2, social_upload sqrt st id files = (.ok r, st2) ∧
      r.social_match_score = minOr1 (collectedScores sqrt live files) ∧
      r.social_risk_score = 1 - min 1 r.social_match_score ∧
      r.social_status = "ok" ∧
      ∃ s2, getS st2 id = some s2 ∧
        s2.social_images = s.social_images ++ acceptedImages files ∧
        s2.social_match_score = some r.social_match_score ∧
        s2.social_risk_score = some r.social_risk_score ∧
        s2.social_status = some "ok" := by
  obtain ⟨h1, h2⟩ := social_upload_loop_spec sqrt live id files [] st
  have hm : (social_upload_loop sqrt (some live) id files [] st).1 =
      collectedScores sqrt live files := by
    rw [h1]
    rfl
  have hs2 : getS (social_upload_loop sqrt (some live) id files [] st).2 id =
      some { s with social_images := s.social_images ++ acceptedImages files } := by
    rw [h2 id, if_pos rfl, hg]
    rfl
  rcases hcol : collectedScores sqrt live files with _ | ⟨c, cs⟩
  · have hL1 : (social_upload_loop sqrt (some live) id files [] st).1 = [] := by
      rw [hm, hcol]
    refine ⟨⟨1, 1 - min 1 (1 : ℚ), "ok"⟩,
      updS (social_upload_loop sqrt (some live) id files [] st).2 id (fun t =>
        { t with social_match_score := some 1
                 social_risk_score := some (1 - min 1 (1 : ℚ))
                 social_status := some "ok" }),
      ?_, ?_, rfl, rfl,
      ⟨{ { s with social_images := s.social_images ++ acceptedImages files } with
           social_match_score := some 1
           social_risk_score := some (1 - min 1 (1 : ℚ))
           social_status := some "ok" }, ?_, rfl, rfl, rfl, rfl⟩⟩
    · simp only [social_upload, hg, hl]
      rw [hL1]
    · rfl
    · rw [getS_updS_self, hs2]
      rfl
  · have hL1 : (social_upload_loop sqrt (some live) id files [] st).1 = c :: cs := by
      rw [hm, hcol]
    refine ⟨⟨minQ c cs, 1 - min 1 (minQ c cs), "ok"⟩,
      updS (social_upload_loop sqrt (some live) id files [] st).2 id (fun t =>
        { t with social_match_score := some (minQ c cs)
                 social_risk_score := some (1 - min 1 (minQ c cs))
                 social_status := some "ok" }),
      ?_, ?_, rfl, rfl,
      ⟨{ { s with social_images := s.social_images ++ acceptedImages files } with
           social_match_score := some (minQ c cs)
           social_risk_score := some (1 - min 1 (minQ c cs))
           social_status := some "ok" }, ?_, rfl, rfl, rfl, rfl⟩⟩
    · simp only [social_upload, hg, hl]
      rw [hL1]
    · rfl
    · rw [getS_updS_self, hs2]
      rfl

/-- Session with a live embedding used by the C3 inputs. -/
def sessC3 : Session :=
  { freshSession ["blink"] with
      live_embedding := some [3, 4]
      liveness_scores := [9 / 10]
      verifier := some ⟨["blink"]⟩ }

/-- Store holding the C3 session. -/
def stC3 : Store := [("s3", sessC3)]

/-- A single decodable social image whose embedding `[4, 3]` is close to the
live embedding `[3, 4]` (cosine distance about 0.04, similarity about 0.96). -/
def filesC3 : List UploadFileModel := [⟨"a.jpg", "id1", true, some [4, 3]⟩]

/-- C3 counterexample: the collected value, and hence the aggregate
`match_score`, is `cosine_similarity live emb` — the cosine distance itself
(about 0.04 here, below 1/20) — and not `1 − distance` (about 0.96) as the
claim states. -/
theorem C3_counterexample :
    (social_upload sqrt5 stC3 "s3" filesC3).1 =
      .ok ⟨cosine_similarity sqrt5 [3, 4] [4, 3],
           1 - min 1 (cosine_similarity sqrt5 [3, 4] [4, 3]), "ok"⟩ ∧
      cosine_similarity sqrt5 [3, 4] [4, 3] < 1 / 20 ∧
      cosine_similarity sqrt5 [3, 4] [4, 3] ≠
        1 - cosine_similarity sqrt5 [3, 4] [4, 3] := by
  refine ⟨rfl, ?_, ?_⟩
  · norm_num [cosine_similarity, normalizeV, dotQ, sqrt5]
  · norm_num [cosine_similarity, normalizeV, dotQ, sqrt5]

/-- Batch with one undecodable image and one usable image. -/
def filesW3 : List UploadFileModel :=
  [⟨"bad.jpg", "id0", false, none⟩, ⟨"a.jpg", "id1", true, some [4, 3]⟩]

/-- Witness for the amended C3 on the mixed batch. -/
theorem C3_social_upload_aggregates_distances_witness :
    ∃ r st2, social_upload sqrt5 stC3 "s3" filesW3 = (.ok r, st2) ∧
      r.social_match_score = minOr1 (collectedScores sqrt5 [3, 4] filesW3) ∧
      r.social_risk_score = 1 - min 1 r.social_match_score ∧
      r.social_status = "ok" ∧
      ∃ s2, getS st2 "s3" = some s2 ∧
        s2.social_images = sessC3.social_images ++ acceptedImages filesW3 ∧
        s2.social_match_score = some r.social_match_score ∧
        s2.social_risk_score = some r.social_risk_score ∧
        s2.social_status = some "ok" :=
  C3_social_upload_aggregates_distances sqrt5 stC3 "s3" sessC3 [3, 4] filesW3 rfl rfl

end KYC
